import Mathlib

/-!
Verification of the core device-emulation substrate of the cloud-hypervisor
repository against its natural-language specification.

The development shallowly embeds the relevant Rust source:
  * `src/vm-virtio/src/queue.rs` — virtio split-queue transport
    (`Descriptor`, `DescriptorChain`, `Queue`) over a byte-level model of
    `vm_memory::GuestMemoryMmap`;
  * `src/devices/src/ioapic.rs` — the 82093AA I/O APIC model;
  * `src/hypervisor/src/arch/x86/emulator/instructions/mov.rs` — the MOV
    instruction handlers (their platform layer is modelled from the spec).

Machine integers are modelled as `Nat` with explicit `% 2^w` where the Rust
code wraps.  Fallible Rust code returns `Option`/`Except`; a Rust `panic`
(from `unwrap`/`assert`) is made observable through the `RResult.panicked`
constructor so that the spec's no-panic policy can be settled.
-/

/-- Outcome of a Rust computation that may abort: either a panic (an
`unwrap`/`assert`/index failure) or a proper value. -/
inductive RResult (α : Type) where
  | panicked : RResult α
  | value : α → RResult α
deriving Repr

namespace VmVirtio

/-- Byte-level model of `vm_memory::GuestMemoryMmap` restricted to a single
mapped region `[0, size)`.  `bytes` gives the content of each guest physical
address; reads reduce each cell modulo 256 so only the low byte matters. -/
structure GuestMemoryMmap where
  size : Nat
  bytes : Nat → Nat

/-- Little-endian read of `n` bytes starting at guest address `a`
(the semantics of `vm_memory` typed volatile loads on x86). -/
def readLE (m : GuestMemoryMmap) : Nat → Nat → Nat
  | _, 0 => 0
  | a, n + 1 => m.bytes a % 256 + 256 * readLE m (a + 1) n

/-- Store one byte (low 8 bits of `v`) at address `a`. -/
def writeByte (m : GuestMemoryMmap) (a v : Nat) : GuestMemoryMmap :=
  ⟨m.size, fun x => if x = a then v % 256 else m.bytes x⟩

/-- Little-endian store of the `n` low bytes of `v` starting at address `a`
(the semantics of `vm_memory` typed volatile stores on x86). -/
def writeLE : GuestMemoryMmap → Nat → Nat → Nat → GuestMemoryMmap
  | m, _, 0, _ => m
  | m, a, n + 1, v => writeLE (writeByte m a v) (a + 1) n (v / 256)

/-- Embeds `GuestMemory::read_obj` for an `n`-byte POD object: the object must lie
wholly inside the mapped region. -/
def read_obj (m : GuestMemoryMmap) (a n : Nat) : Option Nat :=
  if a + n ≤ m.size then some (readLE m a n) else none

/-- Embeds `GuestMemory::write_obj` for an `n`-byte POD object. -/
def write_obj (m : GuestMemoryMmap) (a n v : Nat) : Option GuestMemoryMmap :=
  if a + n ≤ m.size then some (writeLE m a n v) else none

/-- Embeds `GuestMemory::checked_offset(base, delta)`: the resulting address must be
in range (`address_in_range` is strict: the last valid address is `size - 1`). -/
def checked_offset (m : GuestMemoryMmap) (base delta : Nat) : Option Nat :=
  if base + delta < m.size then some (base + delta) else none

/-- Embeds `vm_virtio::queue::Error` (named `Error` in the source). -/
inductive Error where
  | GuestMemoryError
  | InvalidIndirectDescriptor
  | InvalidChain
  | InvalidOffset (o : Nat)
  | InvalidRingIndexFromMemory
deriving DecidableEq, Repr

/-- A virtio descriptor: 16 bytes in guest memory
(`addr : u64`, `len : u32`, `flags : u16`, `next : u16`). -/
structure Descriptor where
  addr : Nat
  len : Nat
  flags : Nat
  next : Nat
deriving DecidableEq, Repr

/-- Decode a `Descriptor` from its 16-byte little-endian layout at guest
address `a` (field offsets 0, 8, 12, 14 as in the `#[repr(C)]` struct). -/
def readDescriptor (m : GuestMemoryMmap) (a : Nat) : Descriptor :=
  { addr := readLE m a 8
    len := readLE m (a + 8) 4
    flags := readLE m (a + 12) 2
    next := readLE m (a + 14) 2 }

/-- Embeds `DescriptorChain` without its `mem` reference (guest memory is passed to
each operation instead).  The optional IOMMU remap callback is modelled as a
partial address translation. -/
structure DescriptorChain where
  desc_table : Nat
  table_size : Nat
  ttl : Nat
  index : Nat
  iommu_mapping_cb : Option (Nat → Option Nat)
  desc : Descriptor

namespace DescriptorChain

/-- Embeds `DescriptorChain::has_next`: NEXT flag set and `ttl > 1`. -/
def has_next (c : DescriptorChain) : Bool :=
  decide (c.desc.flags &&& 1 ≠ 0) && decide (c.ttl > 1)

/-- Embeds `DescriptorChain::is_indirect`. -/
def is_indirect (c : DescriptorChain) : Bool :=
  decide (c.desc.flags &&& 4 ≠ 0)

/-- Embeds `DescriptorChain::is_valid`: the buffer `[addr, addr+len]` must be
reachable through `checked_offset` and, when the chain links on, `next` must
be inside the table. -/
def is_valid (c : DescriptorChain) (m : GuestMemoryMmap) : Bool :=
  !((checked_offset m c.desc.addr c.desc.len).isNone
    || (c.has_next && decide (c.desc.next ≥ c.table_size)))

/-- Embeds `DescriptorChain::read_new`: fetch descriptor `index` from the table
slice, apply the IOMMU remap (whose failure the source `unwrap`s), and
validate.  `RResult.value none` is the source's `None`. -/
def read_new (m : GuestMemoryMmap) (desc_table table_size ttl index : Nat)
    (iommu_mapping_cb : Option (Nat → Option Nat)) :
    RResult (Option DescriptorChain) :=
  if index ≥ table_size then .value none
  else if desc_table + 16 * table_size ≤ m.size then
    let d0 := readDescriptor m (desc_table + 16 * index)
    match iommu_mapping_cb with
    | some cb =>
      match cb d0.addr with
      | some a2 =>
        let chain : DescriptorChain :=
          ⟨desc_table, table_size, ttl, index, some cb, { d0 with addr := a2 }⟩
        if chain.is_valid m then .value (some chain) else .value none
      | none => .panicked
    | none =>
      let chain : DescriptorChain :=
        ⟨desc_table, table_size, ttl, index, none, d0⟩
      if chain.is_valid m then .value (some chain) else .value none
  else .value none

/-- Embeds `DescriptorChain::checked_new`: `read_new` with TTL = table size. -/
def checked_new (m : GuestMemoryMmap) (dtable_addr table_size index : Nat)
    (iommu_mapping_cb : Option (Nat → Option Nat)) :
    RResult (Option DescriptorChain) :=
  read_new m dtable_addr table_size table_size index iommu_mapping_cb

/-- Embeds `DescriptorChain::new_from_indirect`.  The source computes the new table
size as `(self.desc.len() / 16).try_into::<u16>().unwrap()`: when
`len / 16 > 65535` the conversion fails and the `unwrap` panics. -/
def new_from_indirect (c : DescriptorChain) (m : GuestMemoryMmap) :
    RResult (Except Error DescriptorChain) :=
  if c.is_indirect = false then .value (.error .InvalidIndirectDescriptor)
  else if (checked_offset m c.desc.addr 16).isNone then
    .value (.error .GuestMemoryError)
  else
    match read_obj m c.desc.addr 16 with
    | none => .value (.error .GuestMemoryError)
    | some _ =>
      let d0 := readDescriptor m c.desc.addr
      match c.iommu_mapping_cb with
      | some cb =>
        match cb d0.addr with
        | none => .panicked
        | some a2 =>
          if c.desc.len / 16 ≥ 65536 then .panicked
          else
            let chain : DescriptorChain :=
              ⟨c.desc.addr, c.desc.len / 16, c.desc.len / 16, 0, some cb,
                { d0 with addr := a2 }⟩
            if chain.is_valid m then .value (.ok chain)
            else .value (.error .InvalidChain)
      | none =>
        if c.desc.len / 16 ≥ 65536 then .panicked
        else
          let chain : DescriptorChain :=
            ⟨c.desc.addr, c.desc.len / 16, c.desc.len / 16, 0, none, d0⟩
          if chain.is_valid m then .value (.ok chain)
          else .value (.error .InvalidChain)

/-- Embeds `Iterator::next` for `DescriptorChain`.  Yields the current descriptor;
when NEXT is set and TTL > 1 it loads the linked descriptor (the unvalidated
`load(index)` asserts `index < table_size` and panics otherwise) and
decrements TTL, else it zeroes TTL.  A `get_slice` failure is the source's
`.ok()?`, returning `None` with the cursor unchanged. -/
def next (c : DescriptorChain) (m : GuestMemoryMmap) :
    RResult (Option Descriptor × DescriptorChain) :=
  if c.ttl = 0 then .value (none, c)
  else if c.desc.flags &&& 1 ≠ 0 ∧ c.ttl > 1 then
    if c.desc_table + 16 * c.table_size ≤ m.size then
      if c.desc.next < c.table_size then
        .value (some c.desc,
          { c with desc := readDescriptor m (c.desc_table + 16 * c.desc.next),
                   ttl := c.ttl - 1 })
      else .panicked
    else .value (none, c)
  else .value (some c.desc, { c with ttl := 0 })

end DescriptorChain

/-- Repeatedly call `DescriptorChain::next` (at most `k` times), collecting
the yielded descriptors until the iterator returns nothing (or panics). -/
def collectChain (m : GuestMemoryMmap) : Nat → DescriptorChain → List Descriptor
  | 0, _ => []
  | k + 1, c =>
    match c.next m with
    | .panicked => []
    | .value (none, _) => []
    | .value (some d, c2) => d :: collectChain m k c2

/-- Embeds `vm_virtio::queue::Queue` (the `vm_fd`-independent state; the IOMMU
remap callback is kept as in the source). -/
structure Queue where
  max_size : Nat
  size : Nat
  ready : Bool
  vector : Nat
  desc_table : Nat
  avail_ring : Nat
  used_ring : Nat
  next_avail : Nat
  next_used : Nat
  iommu_mapping_cb : Option (Nat → Option Nat)
  event_idx : Bool
  signalled_used : Option Nat

namespace Queue

/-- Embeds `Queue::new(max_size)`. -/
def new (max_size : Nat) : Queue :=
  { max_size := max_size
    size := max_size
    ready := false
    vector := 0
    desc_table := 0
    avail_ring := 0
    used_ring := 0
    next_avail := 0
    next_used := 0
    iommu_mapping_cb := none
    event_idx := false
    signalled_used := none }

/-- Embeds `Queue::actual_size`. -/
def actual_size (q : Queue) : Nat := min q.size q.max_size

/-- Embeds `Queue::reset`. -/
def reset (q : Queue) : Queue :=
  { q with ready := false, size := q.max_size, next_avail := 0, next_used := 0 }

/-- Embeds `Queue::set_event_idx`. -/
def set_event_idx (q : Queue) (enabled : Bool) : Queue :=
  { q with signalled_used := none, event_idx := enabled }

/-- Embeds `Queue::add_used(mem, desc_index, len)`.  The three guest-memory writes
are `unwrap`ed in the source ("can't fail as we are guaranteed to be within
the descriptor ring"), so a failing write is a panic.  `unchecked_add` on
`GuestAddress` wraps modulo `2^64`. -/
def add_used (q : Queue) (m : GuestMemoryMmap) (desc_index len : Nat) :
    RResult (Option Nat × Queue × GuestMemoryMmap) :=
  if desc_index ≥ q.actual_size then .value (none, q, m)
  else
    let next_used := q.next_used % q.actual_size
    let used_elem := (q.used_ring + 4 + next_used * 8) % 18446744073709551616
    match write_obj m used_elem 4 desc_index with
    | none => .panicked
    | some m1 =>
      match write_obj m1 ((used_elem + 4) % 18446744073709551616) 4 len with
      | none => .panicked
      | some m2 =>
        let q2 := { q with next_used := (q.next_used + 1) % 65536 }
        match write_obj m2 ((q.used_ring + 2) % 18446744073709551616) 2
            q2.next_used with
        | none => .panicked
        | some m3 => .value (some q2.next_used, q2, m3)

/-- Embeds `Queue::get_used_event`: read the 16-bit `used_event` at
`avail_ring + 4 + 2·actual_size` (the offset is computed in wrapping `u16`
arithmetic before the `as usize` cast). -/
def get_used_event (q : Queue) (m : GuestMemoryMmap) : Option Nat :=
  let off := (4 + q.actual_size * 2 % 65536) % 65536
  match checked_offset m q.avail_ring off with
  | none => none
  | some a =>
    match read_obj m a 2 with
    | none => none
    | some v => some v

/-- Wrapping `u16` subtraction (`Wrapping<u16>` arithmetic). -/
def wsub (a b : Nat) : Nat := (a % 65536 + 65536 - b % 65536) % 65536

/-- Embeds `Queue::needs_notification(mem, used_idx)`.  Returns the boolean along
with the updated queue (the source mutates `self.signalled_used`). -/
def needs_notification (q : Queue) (m : GuestMemoryMmap) (used_idx : Nat) :
    Bool × Queue :=
  if q.event_idx = false then (true, q)
  else
    let notify : Bool :=
      match q.signalled_used, q.get_used_event m with
      | some old_idx, some used_event =>
        if wsub (wsub used_idx used_event) 1 ≥ wsub used_idx old_idx
        then false else true
      | some _, none => true
      | none, _ => true
    (notify, { q with signalled_used := some used_idx })

end Queue

end VmVirtio

namespace Devices

/-- Embeds `devices::ioapic::Error` (named `Error` in the source); the `io::Error`
payload of `InterruptFailed` is modelled as an OS error code. -/
inductive Error where
  | InterruptFailed (e : Nat)
  | InvalidDestinationMode
  | InvalidTriggerMode
  | InvalidDeliveryMode
deriving DecidableEq, Repr

/-- An MSI message as submitted to the KVF (`kvm_msi` with `address_hi`,
`flags`, `devid` always 0 in this code path). -/
structure MsiMessage where
  addr : Nat
  data : Nat
deriving DecidableEq, Repr

/-- Embeds `devices::ioapic::Ioapic` minus its `vm_fd` handle (the KVF call is
passed as an explicit parameter to `service_irq`).  `reg_entries` is the
`[RedirectionTableEntry; 24]` array. -/
structure Ioapic where
  id : Nat
  reg_sel : Nat
  reg_entries : List Nat
deriving DecidableEq, Repr

namespace Ioapic

/-- Embeds `Ioapic::new` (without the `vm_fd` argument). -/
def new : Ioapic := ⟨0, 0, List.replicate 24 0⟩

/-- Little-endian decode of a 4-byte buffer (`LittleEndian::read_u32`). -/
def readU32LE (data : List Nat) : Nat :=
  data.getD 0 0 % 256 + 256 * (data.getD 1 0 % 256)
    + 65536 * (data.getD 2 0 % 256) + 16777216 * (data.getD 3 0 % 256)

/-- Little-endian encode of a `u32` into 4 bytes
(`LittleEndian::write_u32`). -/
def u32LEBytes (v : Nat) : List Nat :=
  [v % 256, v / 256 % 256, v / 65536 % 256, v / 16777216 % 256]

/-- Embeds `Ioapic::ioapic_read`: the indirect register read selected by `reg_sel`
(matched after truncation to `u8`).  Registers: 0 = ID, 1 = Version,
2 = Arbitration ID, `0x10..=0x3f` = RTE halves, otherwise 0 with an error
log. -/
def ioapic_read (s : Ioapic) : Nat :=
  let sel := s.reg_sel % 256
  if sel = 1 then 0x00170011
  else if sel = 0 ∨ sel = 2 then (s.id &&& 0xf) <<< 24
  else if 0x10 ≤ sel ∧ sel ≤ 0x3f then
    let index := (sel - 0x10) / 2
    if sel % 2 = 1 then s.reg_entries.getD index 0 >>> 32
    else s.reg_entries.getD index 0 &&& 0xffffffff
  else 0

/-- Embeds `Ioapic::ioapic_write`: the indirect register write selected by
`reg_sel`.  A low-half RTE write keeps the current entry's bits outside
`0xffff_afff` that match `0xffff_ffff_0000_5000` (preserving read-only bits
12 and 14); a high-half write replaces the upper 32 bits. -/
def ioapic_write (s : Ioapic) (val : Nat) : Ioapic :=
  let sel := s.reg_sel % 256
  if sel = 0 then { s with id := (val >>> 24) &&& 0xf }
  else if 0x10 ≤ sel ∧ sel ≤ 0x3f then
    let index := (sel - 0x10) / 2
    let entry := s.reg_entries.getD index 0
    if sel % 2 = 1 then
      { s with reg_entries :=
          s.reg_entries.set index ((entry &&& 0xffffffff) ||| (val <<< 32)) }
    else
      let e2 := (entry &&& 0xffffffff00005000) ||| (val &&& 0xffffafff)
      { s with reg_entries := s.reg_entries.set index e2 }
  else s

/-- Embeds `BusDevice::read` for the IoApic: a 4-byte MMIO read.  Offsets (after
truncation to `u8`) 0x0 = IOREGSEL and 0x10 = IOWIN fill the caller's
buffer; any other offset logs an error and returns early, leaving the
buffer as it was. -/
def read (s : Ioapic) (offset : Nat) (data : List Nat) : List Nat :=
  if offset % 256 = 0x0 then u32LEBytes s.reg_sel
  else if offset % 256 = 0x10 then u32LEBytes s.ioapic_read
  else data

/-- Embeds `BusDevice::write` for the IoApic: a 4-byte MMIO write. -/
def write (s : Ioapic) (offset : Nat) (data : List Nat) : Ioapic :=
  let value := readU32LE data
  if offset % 256 = 0x0 then { s with reg_sel := value }
  else if offset % 256 = 0x10 then s.ioapic_write value
  else s

/-- Embeds `Ioapic::service_irq(irq)`.  The KVF's `signal_msi` answer is passed as
`kvf` (`Except` error = OS failure, value = acceptance count).  Returns the
`Result`, the updated state, and the MSI submitted to the KVF (if any).
Callers guarantee `irq < 24` (a larger pin would be a Rust index panic). -/
def service_irq (s : Ioapic) (irq : Nat) (kvf : Except Nat Nat) :
    Except Error Unit × Ioapic × Option MsiMessage :=
  let entry := s.reg_entries.getD irq 0
  if (entry >>> 16) &&& 1 = 1 then (.ok (), s, none)
  else
    let destination_mode := (entry >>> 11) &&& 1
    match (if destination_mode = 0 then some ((entry >>> 56) &&& 0xf)
           else if destination_mode = 1 then some ((entry >>> 56) &&& 0xff)
           else none) with
    | none => (.error .InvalidDestinationMode, s, none)
    | some destination_id =>
      let address_lo : Nat := 0xfee00000 ||| (destination_id <<< 12)
        ||| (1 <<< 3) ||| (destination_mode <<< 2)
      let trigger_mode := (entry >>> 15) &&& 1
      if ¬(trigger_mode = 0 ∨ trigger_mode = 1) then
        (.error .InvalidTriggerMode, s, none)
      else
        let delivery_mode := (entry >>> 8) &&& 7
        if ¬(delivery_mode ≤ 7) then (.error .InvalidDeliveryMode, s, none)
        else
          let data : Nat := (trigger_mode <<< 15)
            ||| (((entry >>> 14) &&& 1) <<< 14)
            ||| (delivery_mode <<< 8) ||| (entry &&& 0xff)
          let msi : MsiMessage := ⟨address_lo, data⟩
          match kvf with
          | .ok ret =>
            if ret > 0 then
              let e1 := if trigger_mode = 1
                then (entry &&& 0xffffffffffffbfff) ||| (1 <<< 14)
                else entry
              let e2 := e1 &&& 0xffffffffffffefff
              (.ok (), { s with reg_entries := s.reg_entries.set irq e2 },
                some msi)
            else (.ok (), s, some msi)
          | .error e => (.error (.InterruptFailed e), s, some msi)

end Ioapic

end Devices

namespace Emulator

/-- Modelled from the spec: the enumerated register names the
`PlatformEmulator` contract exposes ("Register read/write by enumerated
name (RAX..R15 ...)"); only the 64-bit names the MOV claims exercise are
listed.  The trait itself lives outside `src/`. -/
inductive Register where
  | RAX | RBX | RCX | RDX
deriving DecidableEq, Repr

/-- Modelled from the spec: a decoded operand kind — "operand kinds
(register, memory, immediate)" produced by the external x86 decoder. -/
inductive Operand where
  | reg (r : Register)
  | mem (addr : Nat)
  | imm (v : Nat)
deriving DecidableEq, Repr

/-- Modelled from the spec: the decoded `Instruction` the external decoder
hands to a handler — its two operands and its post-decode instruction
pointer (`insn.ip()`). -/
structure Instruction where
  op0 : Operand
  op1 : Operand
  ip : Nat
deriving DecidableEq, Repr

/-- Modelled from the spec: the `CpuState` snapshot — a 64-bit register
file plus the instruction pointer. -/
structure CpuState where
  regs : Register → Nat
  ip : Nat

/-- Modelled from the spec: the platform a handler runs against — the CPU
state together with guest memory (`read_mem`/`write_mem`), whose unmapped
addresses fault (`PlatformEmulationError`). -/
structure Machine where
  cpu : CpuState
  memBytes : Nat → Nat
  memMapped : Nat → Bool

/-- Little-endian read of `n` bytes of platform memory; `none` when any
byte is unmapped (the platform's `read_mem` error). -/
def memReadLE (mach : Machine) : Nat → Nat → Option Nat
  | _, 0 => some 0
  | a, n + 1 =>
    if mach.memMapped a then
      match memReadLE mach (a + 1) n with
      | some rest => some (mach.memBytes a % 256 + 256 * rest)
      | none => none
    else none

/-- Little-endian write of the `n` low bytes of `v` to platform memory;
`none` when any byte is unmapped (the platform's `write_mem` error). -/
def memWriteLE (mach : Machine) : Nat → Nat → Nat → Option Machine
  | _, 0, _ => some mach
  | a, n + 1, v =>
    if mach.memMapped a then
      memWriteLE
        { mach with memBytes := fun x => if x = a then v % 256 else mach.memBytes x }
        (a + 1) n (v / 256)
    else none

/-- Modelled from the spec: `get_op(insn, idx, size, state, platform)` —
"Fetch operand `idx` as a W-byte value (via register read, memory read, or
immediate decode — chosen by operand kind)".  `size` is in bytes. -/
def get_op (insn : Instruction) (idx size : Nat) (mach : Machine) :
    Option Nat :=
  match (if idx = 0 then insn.op0 else insn.op1) with
  | .reg r => some (mach.cpu.regs r % 2 ^ (8 * size))
  | .imm v => some (v % 2 ^ (8 * size))
  | .mem a => memReadLE mach a size

/-- Modelled from the spec: `set_op(insn, idx, size, state, platform, v)` —
"Store that value into operand 0 (register write or memory write, also
chosen by operand kind)".  A register write replaces the low `size` bytes;
storing to an immediate is a platform error. -/
def set_op (insn : Instruction) (idx size : Nat) (mach : Machine) (v : Nat) :
    Option Machine :=
  match (if idx = 0 then insn.op0 else insn.op1) with
  | .reg r =>
    some { mach with cpu :=
      { mach.cpu with regs := fun r2 =>
          if r2 = r
          then mach.cpu.regs r2 / 2 ^ (8 * size) * 2 ^ (8 * size) + v % 2 ^ (8 * size)
          else mach.cpu.regs r2 } }
  | .imm _ => none
  | .mem a => memWriteLE mach a size v

/-- The body shared by every MOV handler in `mov.rs` (the `mov_rm_r!`,
`mov_r_rm!`, `mov_rm_imm!`, `mov_r_imm!` macros instantiate it per operand
width): fetch operand 1 at width `w`, store it into operand 0, then set the
instruction pointer to `insn.ip()`.  Platform errors propagate as `none`. -/
def movEmulate (insn : Instruction) (w : Nat) (mach : Machine) :
    Option Machine :=
  match get_op insn 1 w mach with
  | none => none
  | some v =>
    match set_op insn 0 w mach v with
    | none => none
    | some m1 => some { m1 with cpu := { m1.cpu with ip := insn.ip } }

end Emulator

/-! Concrete instances used by the individual claims. -/

/-- Guest memory for the indirect-descriptor scenario: 2 MiB, holding at
address 0 a single descriptor `{addr = 0x1000, len = 0x100000,
flags = INDIRECT, next = 0}` (all other bytes zero). -/
def mem_c1 : VmVirtio.GuestMemoryMmap :=
  ⟨0x200000, fun a => if a = 1 then 0x10 else if a = 10 then 0x10
    else if a = 12 then 4 else 0⟩

/-- The chain `checked_new` builds from `mem_c1` (table base 0, size 1,
head index 0): a valid indirect descriptor with a 1 MiB table. -/
def chain_c1 : VmVirtio.DescriptorChain :=
  ⟨0, 1, 1, 0, none, ⟨0x1000, 0x100000, 4, 0⟩⟩

/-- An empty guest memory (no mapped byte). -/
def memEmpty : VmVirtio.GuestMemoryMmap := ⟨0, fun _ => 0⟩

/-- A 4 KiB all-zero guest memory. -/
def memZero4k : VmVirtio.GuestMemoryMmap := ⟨0x1000, fun _ => 0⟩

/-- A ready size-1 queue whose used ring lies outside guest memory. -/
def q_c2 : VmVirtio.Queue :=
  { VmVirtio.Queue.new 1 with ready := true, used_ring := 0x10000 }

/-- A ready size-4 queue with its used ring at 0x100 and `next_used = 3`. -/
def q_c2w : VmVirtio.Queue :=
  { VmVirtio.Queue.new 4 with ready := true, used_ring := 0x100, next_used := 3 }

/-- Guest memory for the TTL-bound scenario: 4 KiB holding at address 0 a
descriptor `{addr = 0x100, len = 0x10, flags = 0, next = 0}`. -/
def mem_c3 : VmVirtio.GuestMemoryMmap :=
  ⟨0x1000, fun a => if a = 1 then 1 else if a = 8 then 0x10 else 0⟩

/-- The chain `checked_new` builds from `mem_c3` (table base 0, size 2,
head index 0). -/
def chain_c3 : VmVirtio.DescriptorChain :=
  ⟨0, 2, 2, 0, none, ⟨0x100, 0x10, 0, 0⟩⟩

/-- A queue with EVENT_IDX negotiated and `signalled_used` recorded as 0. -/
def q_c4 : VmVirtio.Queue :=
  { VmVirtio.Queue.new 4 with event_idx := true, signalled_used := some 0 }

/-- A queue with configuration the spec's fresh state does not have. -/
def q_c7 : VmVirtio.Queue :=
  { VmVirtio.Queue.new 16 with desc_table := 0x1000, vector := 5, event_idx := true }

/-- An IoApic whose pin-0 RTE is programmed with vector 0x30, physical
destination 0x1, fixed delivery, edge trigger, mask clear, and (stale)
delivery-status bit 12 set. -/
def s_c6 : Devices.Ioapic := ⟨0, 0, ((1 <<< 56) ||| 0x1030) :: List.replicate 23 0⟩

/-- The expected IoApic state after `service_irq(0)` succeeds on `s_c6`:
delivery status cleared, remote IRR still clear. -/
def s_c6r : Devices.Ioapic := ⟨0, 0, ((1 <<< 56) ||| 0x30) :: List.replicate 23 0⟩

/-- The decoded `mov rax, rbx` instruction (bytes `48 89 d8` starting at
IP 0x1000; post-decode IP 0x1003, operand 0 = RAX, operand 1 = RBX). -/
def insn_c8 : Emulator.Instruction := ⟨.reg .RAX, .reg .RBX, 0x1003⟩

/-- The machine for the `mov rax, rbx` scenario:
`rbx = 0x8899AABBCCDDEEFF`, all other registers 0, IP 0x1000. -/
def mach_c8 : Emulator.Machine :=
  ⟨⟨fun r => if r = .RBX then 0x8899AABBCCDDEEFF else 0, 0x1000⟩,
    fun _ => 0, fun _ => false⟩

/-! Facts about the guest-memory byte model. -/

namespace VmVirtio

theorem writeLE_size (m : GuestMemoryMmap) (a n v : Nat) :
    (writeLE m a n v).size = m.size := by
  induction n generalizing m a v with
  | zero => rfl
  | succ n ih => exact ih (writeByte m a v) (a + 1) (v / 256)

theorem writeLE_bytes_out (m : GuestMemoryMmap) (a n v x : Nat)
    (h : x < a ∨ a + n ≤ x) : (writeLE m a n v).bytes x = m.bytes x := by
  induction n generalizing m a v with
  | zero => rfl
  | succ n ih =>
    show (writeLE (writeByte m a v) (a + 1) n (v / 256)).bytes x = m.bytes x
    rw [ih (writeByte m a v) (a + 1) (v / 256) (by omega)]
    show (if x = a then v % 256 else m.bytes x) = m.bytes x
    rw [if_neg (by omega)]

theorem writeLE_bytes_in (m : GuestMemoryMmap) (a n v i : Nat) (h : i < n) :
    (writeLE m a n v).bytes (a + i) = v / 256 ^ i % 256 := by
  induction n generalizing m a v i with
  | zero => omega
  | succ n ih =>
    show (writeLE (writeByte m a v) (a + 1) n (v / 256)).bytes (a + i) = _
    cases i with
    | zero =>
      rw [writeLE_bytes_out _ _ _ _ _ (by omega)]
      show (if a + 0 = a then v % 256 else _) = v / 256 ^ 0 % 256
      rw [if_pos (by omega)]
      simp
    | succ i =>
      have e : a + (i + 1) = (a + 1) + i := by omega
      rw [e, ih (writeByte m a v) (a + 1) (v / 256) i (by omega),
        Nat.div_div_eq_div_mul]
      congr 2
      rw [pow_succ, Nat.mul_comm]

theorem readLE_congr (m1 m2 : GuestMemoryMmap) (a n : Nat)
    (h : ∀ i, i < n → m1.bytes (a + i) = m2.bytes (a + i)) :
    readLE m1 a n = readLE m2 a n := by
  induction n generalizing a with
  | zero => rfl
  | succ n ih =>
    show m1.bytes a % 256 + 256 * readLE m1 (a + 1) n
        = m2.bytes a % 256 + 256 * readLE m2 (a + 1) n
    have h0 : m1.bytes a = m2.bytes a := by
      have := h 0 (by omega); simpa using this
    rw [h0, ih (a + 1) (fun i hi => by
      have h2 := h (i + 1) (by omega)
      have e : a + (i + 1) = a + 1 + i := by omega
      rw [e] at h2
      exact h2)]

theorem readLE_writeLE_disjoint (m : GuestMemoryMmap) (a n v a2 n2 : Nat)
    (h : a2 + n2 ≤ a ∨ a + n ≤ a2) :
    readLE (writeLE m a n v) a2 n2 = readLE m a2 n2 :=
  readLE_congr _ _ _ _ (fun i _ =>
    writeLE_bytes_out m a n v (a2 + i) (by omega))

theorem readLE_writeLE (m : GuestMemoryMmap) (a n v : Nat) :
    readLE (writeLE m a n v) a n = v % 256 ^ n := by
  induction n generalizing m a v with
  | zero => simp [readLE, Nat.mod_one]
  | succ n ih =>
    show (writeLE m a (n + 1) v).bytes a % 256
        + 256 * readLE (writeLE m a (n + 1) v) (a + 1) n = v % 256 ^ (n + 1)
    have hb : (writeLE m a (n + 1) v).bytes a = v % 256 := by
      have := writeLE_bytes_in m a (n + 1) v 0 (by omega)
      simpa using this
    have hr : readLE (writeLE m a (n + 1) v) (a + 1) n = v / 256 % 256 ^ n := by
      show readLE (writeLE (writeByte m a v) (a + 1) n (v / 256)) (a + 1) n = _
      exact ih (writeByte m a v) (a + 1) (v / 256)
    rw [hb, hr, Nat.mod_mod_of_dvd v (dvd_refl 256)]
    rw [pow_succ, Nat.mul_comm (256 ^ n) 256, Nat.mod_mul]

end VmVirtio

/-! Claim C1: panic-freedom of the core on guest-induced malformed state. -/

/-- Claim C1: the claim states that the core never panics on
guest-controllable input (descriptor contents including the `len` field of
an indirect descriptor, ring base addresses, ring index values) and instead
returns an error or drops the operation.  The code violates this:
`checked_new` on `mem_c1` accepts the guest-written indirect descriptor
with `len = 0x100000`, and `new_from_indirect` then panics in
`(len / 16).try_into::<u16>().unwrap()` because `0x100000 / 16 = 0x10000`
exceeds `u16::MAX` — rather than returning any `Error` value. -/
theorem c1_core_panics_on_indirect_len :
    VmVirtio.DescriptorChain.checked_new mem_c1 0 1 0 none
      = .value (some chain_c1) ∧
    chain_c1.new_from_indirect mem_c1 = .panicked := by
  exact ⟨rfl, rfl⟩

/-! Claim C7: what `reset()` restores. -/

/-- Claim C7 counterexample: the claim states that after `reset()` the
queue equals a freshly constructed queue with the same `max_size` (ring
addresses 0, vector 0, EVENT_IDX off).  On `q_c7` (which has
`desc_table = 0x1000`, `vector = 5`, `event_idx = true`) `reset()` leaves
those fields untouched, so the result differs from `Queue::new(16)`. -/
theorem c7_reset_counterexample : q_c7.reset ≠ VmVirtio.Queue.new 16 := by
  intro h
  have h2 : q_c7.reset.desc_table = (VmVirtio.Queue.new 16).desc_table :=
    congrArg VmVirtio.Queue.desc_table h
  simp [q_c7, VmVirtio.Queue.reset, VmVirtio.Queue.new] at h2

/-- Claim C7 (amended): `reset()` sets `ready := false`,
`size := max_size`, `next_avail := 0` and `next_used := 0`, and leaves
`max_size`, `vector`, the three ring base addresses, the EVENT_IDX flag,
`signalled_used` and the IOMMU callback unchanged (so it equals a fresh
queue only in the four reset fields). -/
theorem c7_reset_spec (q : VmVirtio.Queue) :
    q.reset.ready = false ∧ q.reset.size = q.max_size ∧
    q.reset.next_avail = 0 ∧ q.reset.next_used = 0 ∧
    q.reset.max_size = q.max_size ∧ q.reset.vector = q.vector ∧
    q.reset.desc_table = q.desc_table ∧ q.reset.avail_ring = q.avail_ring ∧
    q.reset.used_ring = q.used_ring ∧ q.reset.event_idx = q.event_idx ∧
    q.reset.signalled_used = q.signalled_used ∧
    q.reset.iommu_mapping_cb = q.iommu_mapping_cb :=
  ⟨rfl, rfl, rfl, rfl, rfl, rfl, rfl, rfl, rfl, rfl, rfl, rfl⟩

/-! Claim C9: accesses to unrecognised IoApic MMIO offsets. -/

/-- Claim C9 counterexample: the claim states that a 4-byte read at any
offset other than 0x00 and 0x10 yields 0 in the caller's buffer, and that
a write at such an offset leaves the IoApic unchanged.  Both parts fail:
a read at offset 4 returns early and leaves the buffer bytes `[1,0,0,0]`
(not zeroed), and a write at offset 0x100 (≠ 0x00, ≠ 0x10) is dispatched
as IOREGSEL because the offset is truncated to `u8`, changing `reg_sel`. -/
theorem c9_unrecognized_offset_counterexample :
    Devices.Ioapic.read Devices.Ioapic.new 4 [1, 0, 0, 0] ≠ [0, 0, 0, 0] ∧
    Devices.Ioapic.write Devices.Ioapic.new 0x100 [5, 0, 0, 0]
      ≠ Devices.Ioapic.new := by
  exact ⟨by decide, by decide⟩

/-- Claim C9 (amended): for every 4-byte MMIO access at an offset whose
truncation to 8 bits is neither 0x00 nor 0x10, a read logs an error and
leaves the caller's data buffer unmodified, and a write is ignored,
leaving the whole IoApic state unchanged. -/
theorem c9_unrecognized_offset_spec (s : Devices.Ioapic) (offset : Nat)
    (data : List Nat) (h0 : offset % 256 ≠ 0x0) (h16 : offset % 256 ≠ 0x10) :
    Devices.Ioapic.read s offset data = data ∧
    Devices.Ioapic.write s offset data = s := by
  constructor
  · unfold Devices.Ioapic.read
    rw [if_neg h0, if_neg h16]
  · unfold Devices.Ioapic.write
    simp only []
    rw [if_neg h0, if_neg h16]

/-- Claim C9 witness: the amended theorem applied at offset 4 on a fresh
IoApic with buffer `[9, 9, 9, 9]`. -/
theorem c9_unrecognized_offset_witness :
    Devices.Ioapic.read Devices.Ioapic.new 4 [9, 9, 9, 9] = [9, 9, 9, 9] ∧
    Devices.Ioapic.write Devices.Ioapic.new 4 [9, 9, 9, 9] = Devices.Ioapic.new :=
  c9_unrecognized_offset_spec Devices.Ioapic.new 4 [9, 9, 9, 9]
    (by decide) (by decide)

/-! Claim C10: `set_event_idx` resets the notification state. -/

/-- Claim C10: `set_event_idx(enabled)` always clears the recorded
`signalled_used` (besides setting the EVENT_IDX flag to `enabled`), and
consequently the first `needs_notification` call after any `set_event_idx`
returns `true` regardless of the `used_event` value in guest memory. -/
theorem c10_set_event_idx_spec (q : VmVirtio.Queue) (enabled : Bool)
    (m : VmVirtio.GuestMemoryMmap) (u : Nat) :
    (q.set_event_idx enabled).signalled_used = none ∧
    (q.set_event_idx enabled).event_idx = enabled ∧
    ((q.set_event_idx enabled).needs_notification m u).1 = true := by
  refine ⟨rfl, rfl, ?_⟩
  unfold VmVirtio.Queue.needs_notification VmVirtio.Queue.set_event_idx
  cases enabled with
  | false => simp
  | true => simp

/-! Claim C4: `needs_notification` semantics. -/

/-- Claim C4 counterexample: the claim states that after every
`needs_notification(mem, used_idx)` call, regardless of the EVENT_IDX
flag, the recorded `signalled_used` equals `used_idx`.  On a fresh queue
(EVENT_IDX off) the source returns early without recording anything, so
`signalled_used` is still `None` after the call. -/
theorem c4_needs_notification_counterexample :
    ((VmVirtio.Queue.new 16).needs_notification memEmpty 5).2.signalled_used
      ≠ some 5 := by
  intro h
  simp [VmVirtio.Queue.needs_notification, VmVirtio.Queue.new, memEmpty] at h

/-- Claim C4 (amended): `needs_notification(mem, used_idx)` returns `true`
whenever EVENT_IDX is off, leaving the queue unchanged (in particular
`signalled_used` is not updated); when the feature is on it returns
`false` iff a previous index `old` was recorded in `signalled_used` and
`used_event` is readable from the available ring as `ue` and
`(used_idx - ue - 1) ≥ (used_idx - old)` in wrapping 16-bit arithmetic;
and after every call with the feature on, `signalled_used = used_idx`. -/
theorem c4_needs_notification_spec (q : VmVirtio.Queue)
    (m : VmVirtio.GuestMemoryMmap) (u : Nat) :
    (q.event_idx = false → q.needs_notification m u = (true, q)) ∧
    (q.event_idx = true →
      (q.needs_notification m u).2.signalled_used = some u ∧
      ((q.needs_notification m u).1 = false ↔
        ∃ old ue, q.signalled_used = some old ∧ q.get_used_event m = some ue ∧
          VmVirtio.Queue.wsub (VmVirtio.Queue.wsub u ue) 1
            ≥ VmVirtio.Queue.wsub u old)) := by
  constructor
  · intro h
    simp [VmVirtio.Queue.needs_notification, h]
  · intro h
    constructor
    · simp [VmVirtio.Queue.needs_notification, h]
    · unfold VmVirtio.Queue.needs_notification
      rw [h]
      simp only [Bool.true_eq_false, if_false]
      cases hs : q.signalled_used with
      | none => simp [hs]
      | some old =>
        cases hg : q.get_used_event m with
        | none => simp [hs, hg]
        | some ue =>
          simp only [hs, hg, Option.some.injEq]
          by_cases hc : VmVirtio.Queue.wsub (VmVirtio.Queue.wsub u ue) 1
              ≥ VmVirtio.Queue.wsub u old
          · simp [hc]
          · simp [hc]

/-- Claim C4 witness: the amended theorem applied to `q_c4` (EVENT_IDX on,
`signalled_used = some 0`): after the call, `signalled_used = some 5`. -/
theorem c4_needs_notification_witness :
    (q_c4.needs_notification memEmpty 5).2.signalled_used = some 5 :=
  ((c4_needs_notification_spec q_c4 memEmpty 5).2 rfl).1

/-! Claim C3: the TTL bound on descriptor-chain iteration. -/

/-- An exhausted chain (TTL 0) yields nothing. -/
theorem collectChain_nil_of_ttl_zero (m : VmVirtio.GuestMemoryMmap) (k : Nat)
    (c : VmVirtio.DescriptorChain) (h : c.ttl = 0) :
    VmVirtio.collectChain m k c = [] := by
  cases k with
  | zero => rfl
  | succ k => simp [VmVirtio.collectChain, VmVirtio.DescriptorChain.next, h]

/-- Every successful `next` either exhausts the chain or decrements TTL. -/
theorem next_ttl_step (m : VmVirtio.GuestMemoryMmap)
    (c c2 : VmVirtio.DescriptorChain) (d : VmVirtio.Descriptor)
    (hn : c.next m = .value (some d, c2)) :
    (c2.ttl = 0 ∧ 1 ≤ c.ttl) ∨ (c2.ttl + 1 = c.ttl ∧ 2 ≤ c.ttl) := by
  unfold VmVirtio.DescriptorChain.next at hn
  by_cases h0 : c.ttl = 0
  · rw [if_pos h0] at hn
    simp at hn
  · rw [if_neg h0] at hn
    by_cases h1 : c.desc.flags &&& 1 ≠ 0 ∧ c.ttl > 1
    · rw [if_pos h1] at hn
      by_cases h2 : c.desc_table + 16 * c.table_size ≤ m.size
      · rw [if_pos h2] at hn
        by_cases h3 : c.desc.next < c.table_size
        · rw [if_pos h3] at hn
          simp only [RResult.value.injEq, Prod.mk.injEq, Option.some.injEq] at hn
          right
          rw [← hn.2]
          constructor
          · simp
            omega
          · omega
        · rw [if_neg h3] at hn
          exact absurd hn (by simp)
      · rw [if_neg h2] at hn
        simp at hn
    · rw [if_neg h1] at hn
      simp only [RResult.value.injEq, Prod.mk.injEq, Option.some.injEq] at hn
      left
      rw [← hn.2]
      constructor
      · rfl
      · omega

/-- The number of descriptors yielded by repeated `next` calls never
exceeds the chain's TTL. -/
theorem collectChain_length_le (m : VmVirtio.GuestMemoryMmap) (k : Nat) :
    ∀ c : VmVirtio.DescriptorChain,
      (VmVirtio.collectChain m k c).length ≤ c.ttl := by
  induction k with
  | zero =>
    intro c
    simp [VmVirtio.collectChain]
  | succ k ih =>
    intro c
    unfold VmVirtio.collectChain
    cases hn : c.next m with
    | panicked => simp
    | value r =>
      obtain ⟨od, c2⟩ := r
      cases od with
      | none => simp
      | some d =>
        simp only [List.length_cons]
        rcases next_ttl_step m c c2 d hn with ⟨hz, h1⟩ | ⟨he, h2⟩
        · rw [collectChain_nil_of_ttl_zero m k c2 hz]
          simpa using h1
        · have := ih c2
          omega

/-- Claim C3: for every `DescriptorChain` created by `checked_new` with
table size `N` (TTL initialised to `N`) and every guest-memory content —
including descriptor tables whose `next` links form a cycle — repeatedly
calling `next()` yields at most `N` descriptors before returning nothing. -/
theorem c3_chain_iteration_ttl_bound (m : VmVirtio.GuestMemoryMmap)
    (dt N i : Nat) (cb : Option (Nat → Option Nat)) (k : Nat)
    (c : VmVirtio.DescriptorChain)
    (h : VmVirtio.DescriptorChain.checked_new m dt N i cb = .value (some c)) :
    (VmVirtio.collectChain m k c).length ≤ N := by
  have httl : c.ttl = N := by
    unfold VmVirtio.DescriptorChain.checked_new
      VmVirtio.DescriptorChain.read_new at h
    by_cases h1 : i ≥ N
    · rw [if_pos h1] at h
      simp at h
    · rw [if_neg h1] at h
      by_cases h2 : dt + 16 * N ≤ m.size
      · rw [if_pos h2] at h
        cases cb with
        | none =>
          simp only [] at h
          split at h
          · simp only [RResult.value.injEq, Option.some.injEq] at h
            rw [← h]
          · simp at h
        | some f =>
          simp only [] at h
          split at h
          · split at h
            · simp only [RResult.value.injEq, Option.some.injEq] at h
              rw [← h]
            · simp at h
          · simp at h
      · rw [if_neg h2] at h
        simp at h
  calc (VmVirtio.collectChain m k c).length ≤ c.ttl :=
        collectChain_length_le m k c
    _ = N := httl

/-- Claim C3 witness: the theorem applied to the chain `checked_new`
builds over `mem_c3` with table size 2 and five `next` calls. -/
theorem c3_chain_iteration_witness :
    (VmVirtio.collectChain mem_c3 5 chain_c3).length ≤ 2 :=
  c3_chain_iteration_ttl_bound mem_c3 0 2 0 none 5 chain_c3 rfl

/-! Claim C2: functional correctness of `add_used`. -/

/-- Claim C2 counterexample: the claim states that for every queue and
every `desc_index` below the actual size, `add_used` performs the used-ring
writes and returns the incremented `next_used`.  On `q_c2` (size 1,
`used_ring = 0x10000`, outside the 4 KiB guest memory) with
`desc_index = 0 < 1`, the first ring write fails and its `unwrap` panics:
no value is returned and nothing is written. -/
theorem c2_add_used_counterexample :
    VmVirtio.Queue.add_used q_c2 memZero4k 0 5 = .panicked ∧
    ¬ ∃ q2 m2, VmVirtio.Queue.add_used q_c2 memZero4k 0 5
        = .value (some 1, q2, m2) := by
  constructor
  · rfl
  · intro ⟨q2, m2, hv⟩
    rw [show VmVirtio.Queue.add_used q_c2 memZero4k 0 5 = .panicked from rfl] at hv
    exact RResult.noConfusion hv

/-- Claim C2 (amended): for every queue whose used ring
`[used_ring, used_ring + 6 + 8·actual_size)` lies within guest memory, and
every `desc_index` strictly below the queue's actual size,
`add_used(mem, desc_index, len)` writes the pair `(id = desc_index, len)`
at `used_ring + 4 + (pre-call next_used mod actual_size)·8`, writes the
incremented index `(pre-call next_used + 1) mod 2^16` at `used_ring + 2`,
and returns that new `next_used` value; for every
`desc_index ≥ actual_size` the call returns nothing and both the queue
state and guest memory are unchanged.  (The in-bounds proviso is forced by
the counterexample: outside it the source panics.) -/
theorem c2_add_used_spec (q : VmVirtio.Queue) (m : VmVirtio.GuestMemoryMmap)
    (desc_index len : Nat) (hsz : q.size < 65536) (hlen : len < 4294967296)
    (hring : q.used_ring + 6 + 8 * q.actual_size ≤ m.size)
    (hmem : m.size ≤ 18446744073709551616) :
    (desc_index < q.actual_size →
      ∃ m3 : VmVirtio.GuestMemoryMmap,
        q.add_used m desc_index len =
          .value (some ((q.next_used + 1) % 65536),
            { q with next_used := (q.next_used + 1) % 65536 }, m3) ∧
        VmVirtio.readLE m3
          (q.used_ring + 4 + q.next_used % q.actual_size * 8) 4 = desc_index ∧
        VmVirtio.readLE m3
          (q.used_ring + 4 + q.next_used % q.actual_size * 8 + 4) 4 = len ∧
        VmVirtio.readLE m3 (q.used_ring + 2) 2 = (q.next_used + 1) % 65536) ∧
    (desc_index ≥ q.actual_size →
      q.add_used m desc_index len = .value (none, q, m)) := by
  have hasz : q.actual_size ≤ q.size := Nat.min_le_left _ _
  constructor
  · intro hidx
    have has : 0 < q.actual_size := by omega
    have hslot : q.next_used % q.actual_size < q.actual_size :=
      Nat.mod_lt _ has
    -- the element address and the bounds of the three writes
    have hb1 : q.used_ring + 4 + q.next_used % q.actual_size * 8 + 8 ≤ m.size := by
      have : (q.next_used % q.actual_size) * 8 + 8 ≤ q.actual_size * 8 := by
        omega
      omega
    have hmod1 : (q.used_ring + 4 + q.next_used % q.actual_size * 8)
        % 18446744073709551616
        = q.used_ring + 4 + q.next_used % q.actual_size * 8 :=
      Nat.mod_eq_of_lt (by omega)
    have hmod2 : (q.used_ring + 4 + q.next_used % q.actual_size * 8 + 4)
        % 18446744073709551616
        = q.used_ring + 4 + q.next_used % q.actual_size * 8 + 4 :=
      Nat.mod_eq_of_lt (by omega)
    have hmod3 : (q.used_ring + 2) % 18446744073709551616 = q.used_ring + 2 :=
      Nat.mod_eq_of_lt (by omega)
    set s := q.used_ring + 4 + q.next_used % q.actual_size * 8 with hs
    set m1 := VmVirtio.writeLE m s 4 desc_index with hm1
    set m2 := VmVirtio.writeLE m1 (s + 4) 4 len with hm2
    set m3 := VmVirtio.writeLE m2 (q.used_ring + 2) 2
      ((q.next_used + 1) % 65536) with hm3
    have hsz1 : m1.size = m.size := VmVirtio.writeLE_size m s 4 desc_index
    have hsz2 : m2.size = m.size := by
      rw [hm2, VmVirtio.writeLE_size, hsz1]
    have hw1 : VmVirtio.write_obj m s 4 desc_index = some m1 := by
      unfold VmVirtio.write_obj
      rw [if_pos (by omega)]
    have hw2 : VmVirtio.write_obj m1 (s + 4) 4 len = some m2 := by
      unfold VmVirtio.write_obj
      rw [hsz1, if_pos (by omega)]
    have hw3 : VmVirtio.write_obj m2 (q.used_ring + 2) 2
        ((q.next_used + 1) % 65536) = some m3 := by
      unfold VmVirtio.write_obj
      rw [hsz2, if_pos (by omega)]
    refine ⟨m3, ?_, ?_, ?_, ?_⟩
    · unfold VmVirtio.Queue.add_used
      rw [if_neg (by omega)]
      simp only [hmod1, ← hs, hw1, hmod2, hw2, hmod3, hw3]
    · rw [hm3, VmVirtio.readLE_writeLE_disjoint _ _ _ _ _ _ (by omega),
        hm2, VmVirtio.readLE_writeLE_disjoint _ _ _ _ _ _ (by omega),
        hm1, VmVirtio.readLE_writeLE]
      have : desc_index < 256 ^ 4 := by
        have : (256 : Nat) ^ 4 = 4294967296 := by norm_num
        omega
      exact Nat.mod_eq_of_lt this
    · rw [hm3, VmVirtio.readLE_writeLE_disjoint _ _ _ _ _ _ (by omega),
        hm2, VmVirtio.readLE_writeLE]
      have : len < 256 ^ 4 := by
        have : (256 : Nat) ^ 4 = 4294967296 := by norm_num
        omega
      exact Nat.mod_eq_of_lt this
    · rw [hm3, VmVirtio.readLE_writeLE]
      have : (q.next_used + 1) % 65536 < 256 ^ 2 := by
        have : (256 : Nat) ^ 2 = 65536 := by norm_num
        omega
      exact Nat.mod_eq_of_lt this
  · intro hge
    unfold VmVirtio.Queue.add_used
    rw [if_pos hge]

/-- Claim C2 witness: the amended theorem applied to `q_c2w` (size 4, used
ring at 0x100, `next_used = 3`) in a 4 KiB memory with `desc_index = 2`
and `len = 7`. -/
theorem c2_add_used_witness :
    ∃ m3 : VmVirtio.GuestMemoryMmap,
      q_c2w.add_used memZero4k 2 7 =
        .value (some ((q_c2w.next_used + 1) % 65536),
          { q_c2w with next_used := (q_c2w.next_used + 1) % 65536 }, m3) ∧
      VmVirtio.readLE m3
        (q_c2w.used_ring + 4 + q_c2w.next_used % q_c2w.actual_size * 8) 4 = 2 ∧
      VmVirtio.readLE m3
        (q_c2w.used_ring + 4 + q_c2w.next_used % q_c2w.actual_size * 8 + 4) 4
        = 7 ∧
      VmVirtio.readLE m3 (q_c2w.used_ring + 2) 2
        = (q_c2w.next_used + 1) % 65536 :=
  (c2_add_used_spec q_c2w memZero4k 2 7 (by decide) (by decide)
    (by decide) (by decide)).1 (by decide)

/-! Claim C5: guest RTE writes preserve the read-only bits. -/

/-- List `getD` after `set` at the same (in-bounds) index. -/
theorem getD_set_self (l : List Nat) (i v : Nat) (h : i < l.length) :
    (l.set i v).getD i 0 = v := by
  induction l generalizing i with
  | nil => simp at h
  | cons x xs ih =>
    cases i with
    | zero => rfl
    | succ i =>
      simp only [List.set_cons_succ, List.getD_cons_succ]
      exact ih i (by simpa using h)

/-- Round trip of the 4-byte little-endian MMIO encoding. -/
theorem readU32LE_u32LEBytes (v : Nat) (h : v < 4294967296) :
    Devices.Ioapic.readU32LE (Devices.Ioapic.u32LEBytes v) = v := by
  unfold Devices.Ioapic.readU32LE Devices.Ioapic.u32LEBytes
  simp only [List.getD_cons_zero, List.getD_cons_succ]
  omega

/-- Writing IOREGSEL then IOWIN equals an `ioapic_write` with the latched
selector. -/
theorem write_ioregsel_then_iowin (s : Devices.Ioapic) (sel val : Nat)
    (hsel : sel < 4294967296) (hval : val < 4294967296) :
    (s.write 0 (Devices.Ioapic.u32LEBytes sel)).write 0x10
        (Devices.Ioapic.u32LEBytes val)
      = Devices.Ioapic.ioapic_write { s with reg_sel := sel } val := by
  unfold Devices.Ioapic.write
  simp only [readU32LE_u32LEBytes sel hsel, readU32LE_u32LEBytes val hval]
  norm_num

/-- An `ioapic_write` with an even RTE selector updates the low half of
entry `(sel - 0x10) / 2`, masking the incoming value with `0xffff_afff`
and keeping the current bits selected by `0xffff_ffff_0000_5000`. -/
theorem ioapic_write_low (s : Devices.Ioapic) (i val : Nat) (hi : i < 24)
    (hsel : s.reg_sel = 16 + 2 * i) :
    s.ioapic_write val =
      { s with reg_entries := s.reg_entries.set i ((s.reg_entries.getD i 0 &&&
          0xffffffff00005000) ||| (val &&& 0xffffafff)) } := by
  unfold Devices.Ioapic.ioapic_write
  rw [hsel, Nat.mod_eq_of_lt (show 16 + 2 * i < 256 by omega)]
  rw [if_neg (by omega), if_pos (show 0x10 ≤ 16 + 2 * i ∧ 16 + 2 * i ≤ 0x3f
    by omega), if_neg (show ¬(16 + 2 * i) % 2 = 1 by omega)]
  rw [show (16 + 2 * i - 0x10) / 2 = i by omega]

/-- An `ioapic_write` with an odd RTE selector replaces the upper 32 bits
of entry `(sel - 0x10) / 2`. -/
theorem ioapic_write_high (s : Devices.Ioapic) (i val : Nat) (hi : i < 24)
    (hsel : s.reg_sel = 17 + 2 * i) :
    s.ioapic_write val =
      { s with reg_entries := s.reg_entries.set i ((s.reg_entries.getD i 0 &&&
          0xffffffff) ||| (val <<< 32)) } := by
  unfold Devices.Ioapic.ioapic_write
  rw [hsel, Nat.mod_eq_of_lt (show 17 + 2 * i < 256 by omega)]
  rw [if_neg (by omega), if_pos (show 0x10 ≤ 17 + 2 * i ∧ 17 + 2 * i ≤ 0x3f
    by omega), if_pos (show (17 + 2 * i) % 2 = 1 by omega)]
  rw [show (17 + 2 * i - 0x10) / 2 = i by omega]

/-- Bit 12 survives a low-half RTE write. -/
theorem low_write_testBit12 (e val : Nat) :
    ((e &&& 0xffffffff00005000) ||| (val &&& 0xffffafff)).testBit 12
      = e.testBit 12 := by
  rw [Nat.testBit_or, Nat.testBit_and, Nat.testBit_and]
  rw [show (0xffffffff00005000 : Nat).testBit 12 = true from by decide]
  rw [show (0xffffafff : Nat).testBit 12 = false from by decide]
  simp

/-- Bit 14 survives a low-half RTE write. -/
theorem low_write_testBit14 (e val : Nat) :
    ((e &&& 0xffffffff00005000) ||| (val &&& 0xffffafff)).testBit 14
      = e.testBit 14 := by
  rw [Nat.testBit_or, Nat.testBit_and, Nat.testBit_and]
  rw [show (0xffffffff00005000 : Nat).testBit 14 = true from by decide]
  rw [show (0xffffafff : Nat).testBit 14 = false from by decide]
  simp

/-- A high-half RTE write leaves the low 32 bits unchanged. -/
theorem high_write_low_unchanged (e val : Nat) :
    ((e &&& 0xffffffff) ||| (val <<< 32)) &&& 0xffffffff
      = e &&& 0xffffffff := by
  have hm : (0xffffffff : Nat) = 2 ^ 32 - 1 := by norm_num
  apply Nat.eq_of_testBit_eq
  intro j
  simp only [Nat.testBit_and, Nat.testBit_or, Nat.testBit_shiftLeft, hm,
    Nat.testBit_two_pow_sub_one]
  by_cases hj : j < 32
  · have h2 : ¬ j ≥ 32 := by omega
    simp [hj, h2]
  · simp [hj]

/-- A high-half RTE write stores the incoming value in the upper 32 bits. -/
theorem high_write_upper (e val : Nat) (_hval : val < 4294967296) :
    ((e &&& 0xffffffff) ||| (val <<< 32)) >>> 32 = val := by
  have hm : (0xffffffff : Nat) = 2 ^ 32 - 1 := by norm_num
  apply Nat.eq_of_testBit_eq
  intro j
  rw [Nat.testBit_shiftRight, Nat.testBit_or, Nat.testBit_and, hm,
    Nat.testBit_two_pow_sub_one, Nat.testBit_shiftLeft]
  simp [show ¬(32 + j < 32) by omega, show 32 + j ≥ 32 by omega,
    show 32 + j - 32 = j by omega]

/-- Claim C5: for every RTE index `i < 24` and every 32-bit value the
guest writes through IOREGSEL/IOWIN, a low-half write leaves bits 12
(delivery status) and 14 (remote IRR) of the stored 64-bit entry exactly
as they were, and a high-half write replaces only the upper 32 bits,
leaving the low 32 bits unchanged. -/
theorem c5_rte_write_preserves_ro_bits (s : Devices.Ioapic) (i val : Nat)
    (hi : i < 24) (hval : val < 4294967296)
    (hlen : s.reg_entries.length = 24) :
    ((((s.write 0 (Devices.Ioapic.u32LEBytes (16 + 2 * i))).write 0x10
          (Devices.Ioapic.u32LEBytes val)).reg_entries.getD i 0).testBit 12
        = (s.reg_entries.getD i 0).testBit 12 ∧
      (((s.write 0 (Devices.Ioapic.u32LEBytes (16 + 2 * i))).write 0x10
          (Devices.Ioapic.u32LEBytes val)).reg_entries.getD i 0).testBit 14
        = (s.reg_entries.getD i 0).testBit 14) ∧
    ((((s.write 0 (Devices.Ioapic.u32LEBytes (17 + 2 * i))).write 0x10
          (Devices.Ioapic.u32LEBytes val)).reg_entries.getD i 0)
          &&& 0xffffffff
        = s.reg_entries.getD i 0 &&& 0xffffffff ∧
      (((s.write 0 (Devices.Ioapic.u32LEBytes (17 + 2 * i))).write 0x10
          (Devices.Ioapic.u32LEBytes val)).reg_entries.getD i 0) >>> 32
        = val) := by
  have hlow := write_ioregsel_then_iowin s (16 + 2 * i) val (by omega) hval
  have hhigh := write_ioregsel_then_iowin s (17 + 2 * i) val (by omega) hval
  rw [hlow, hhigh, ioapic_write_low _ i val hi rfl,
    ioapic_write_high _ i val hi rfl]
  simp only []
  rw [getD_set_self _ _ _ (by rw [hlen]; exact hi),
    getD_set_self _ _ _ (by rw [hlen]; exact hi)]
  exact ⟨⟨low_write_testBit12 _ _, low_write_testBit14 _ _⟩,
    high_write_low_unchanged _ _, high_write_upper _ _ hval⟩

/-- Claim C5 witness: the theorem applied to a fresh IoApic at pin 3 with
the all-ones 32-bit value. -/
theorem c5_rte_write_witness :
    ((((Devices.Ioapic.new.write 0
            (Devices.Ioapic.u32LEBytes (16 + 2 * 3))).write 0x10
          (Devices.Ioapic.u32LEBytes 0xffffffff)).reg_entries.getD 3 0).testBit
          12
        = ((Devices.Ioapic.new.reg_entries.getD 3 0).testBit 12) ∧
      ((((Devices.Ioapic.new.write 0
            (Devices.Ioapic.u32LEBytes (16 + 2 * 3))).write 0x10
          (Devices.Ioapic.u32LEBytes 0xffffffff)).reg_entries.getD 3 0).testBit
          14
        = (Devices.Ioapic.new.reg_entries.getD 3 0).testBit 14)) ∧
    (((((Devices.Ioapic.new.write 0
            (Devices.Ioapic.u32LEBytes (17 + 2 * 3))).write 0x10
          (Devices.Ioapic.u32LEBytes 0xffffffff)).reg_entries.getD 3 0)
          &&& 0xffffffff
        = Devices.Ioapic.new.reg_entries.getD 3 0 &&& 0xffffffff) ∧
      ((((Devices.Ioapic.new.write 0
            (Devices.Ioapic.u32LEBytes (17 + 2 * 3))).write 0x10
          (Devices.Ioapic.u32LEBytes 0xffffffff)).reg_entries.getD 3 0) >>> 32
        = 0xffffffff)) :=
  c5_rte_write_preserves_ro_bits Devices.Ioapic.new 3 0xffffffff
    (by decide) (by decide) (by decide)

/-! Claim C6: MSI synthesis for a concrete RTE programming. -/

/-- Claim C6: for the RTE programmed with vector 0x30, destination 0x1,
physical destination mode, edge trigger, fixed delivery and mask clear
(entry `(1 <<< 56) ||| 0x1030`, with a stale delivery-status bit),
`service_irq(0)` submits to the KVF an MSI with
`address_lo = 0xFEE0_1008` and `data = 0x0000_0030` (matching
`address_lo = 0xFEE00000 | dest_id<<12 | 1<<3 | dest_mode<<2` and
`data = trigger<<15 | remote_irr<<14 | delivery<<8 | vector`), and on a
successful delivery (acceptance count 1) the delivery-status bit 12 is
cleared while remote IRR (bit 14) stays 0 because the trigger is edge. -/
theorem c6_service_irq_msi_synthesis :
    Devices.Ioapic.service_irq s_c6 0 (.ok 1)
      = (.ok (), s_c6r, some ⟨0xfee01008, 0x30⟩) ∧
    (s_c6r.reg_entries.getD 0 0).testBit 12 = false ∧
    (s_c6r.reg_entries.getD 0 0).testBit 14 = false := by
  refine ⟨rfl, by decide, by decide⟩

/-! Claim C8: the MOV handlers. -/

/-- Claim C8: emulating `mov rax, rbx` (bytes `48 89 d8`, post-decode IP
`0x1003`) with `rbx = 0x8899AABBCCDDEEFF` sets `rax` to
`0x8899AABBCCDDEEFF` and advances the instruction pointer by exactly 3
(from 0x1000 to 0x1003); and in general every MOV handler body fetches
operand 1 at the operand width, stores it into operand 0, and then sets
the instruction pointer to the instruction's post-decode IP, propagating
platform errors. -/
theorem c8_mov_emulate_spec :
    ((Emulator.movEmulate insn_c8 8 mach_c8).map
        (fun mr => (mr.cpu.regs .RAX, mr.cpu.ip))
      = some (0x8899AABBCCDDEEFF, 0x1003)) ∧
    ∀ (insn : Emulator.Instruction) (w : Nat) (mach : Emulator.Machine),
      Emulator.movEmulate insn w mach =
        (Emulator.get_op insn 1 w mach).bind (fun v =>
          (Emulator.set_op insn 0 w mach v).map (fun m1 =>
            { m1 with cpu := { m1.cpu with ip := insn.ip } })) := by
  constructor
  · rfl
  · intro insn w mach
    unfold Emulator.movEmulate
    cases hg : Emulator.get_op insn 1 w mach with
    | none => rfl
    | some v =>
      cases hs : Emulator.set_op insn 0 w mach v with
      | none => simp [hs]
      | some m1 => simp [hs]
